import Mathlib

/-!
Verification of the qimo knowledge-base pipeline against its specification.

The Python sources are shallowly embedded: strings are `List Char`, numpy
float matrices are `List (List Int)` (exact integer arithmetic standing in
for the numeric payload; the claims under study concern ordering, alignment
and control flow, not rounding), Python exceptions are `Except` errors, and
the filesystem touched by `save_index` / `load_index` is an explicit
association-list state.
-/

namespace Qimo

/-! ## Chunking engine: `src/text_splitter.py` -/

/-- Character class of the regex `[一-鿿]` (code points 0x4e00..0x9fff) in
`ChineseSemanticSplitter._chinese_aware_length`. -/
def isCJK (c : Char) : Bool :=
  decide (0x4e00 ≤ c.toNat) && decide (c.toNat ≤ 0x9fff)

/-- Character class of the regex `[a-zA-Z]`: code points 97..122 (`a`..`z`)
or 65..90 (`A`..`Z`). -/
def isLatinLetter (c : Char) : Bool :=
  (decide (97 ≤ c.toNat) && decide (c.toNat ≤ 122)) ||
  (decide (65 ≤ c.toNat) && decide (c.toNat ≤ 90))

/-- Character class of Python's regex `\s` (Unicode whitespace as matched by
`re` on `str`). -/
def isPySpace (c : Char) : Bool :=
  c.toNat == 0x20 || c.toNat == 0x09 || c.toNat == 0x0a || c.toNat == 0x0d ||
  c.toNat == 0x0b || c.toNat == 0x0c ||
  c.toNat == 0x1c || c.toNat == 0x1d || c.toNat == 0x1e || c.toNat == 0x1f ||
  c.toNat == 0x85 || c.toNat == 0xa0 || c.toNat == 0x1680 ||
  (decide (0x2000 ≤ c.toNat) && decide (c.toNat ≤ 0x200a)) ||
  c.toNat == 0x2028 || c.toNat == 0x2029 ||
  c.toNat == 0x202f || c.toNat == 0x205f || c.toNat == 0x3000

/-- Character class of the regex `[^一-鿿a-zA-Z\s]` (everything that
is neither CJK, nor a Latin letter, nor whitespace). -/
def isOtherChar (c : Char) : Bool :=
  !isCJK c && !isLatinLetter c && !isPySpace c

/-- `ChineseSemanticSplitter._chinese_aware_length` (text_splitter.py:23-44).
`re.findall` over each class followed by `len` is a `countP`; the final line
is `len(chinese) + len(other) + (len(english) // 2 + len(english) % 2)`. -/
def chinese_aware_length (text : List Char) : Nat :=
  if text = [] then 0
  else
    let chinese_chars := text.countP isCJK
    let english_chars := text.countP isLatinLetter
    let other_chars := text.countP isOtherChar
    chinese_chars + other_chars + (english_chars / 2 + english_chars % 2)

/-- The guard for the empty string coincides with the count formula, so the
formula holds unconditionally. -/
theorem chinese_aware_length_eq (text : List Char) :
    chinese_aware_length text =
      text.countP isCJK + text.countP isOtherChar +
        (text.countP isLatinLetter / 2 + text.countP isLatinLetter % 2) := by
  unfold chinese_aware_length
  split
  · subst text; rfl
  · rfl

theorem isCJK_not_latin {c : Char} (h : isCJK c = true) : isLatinLetter c = false := by
  unfold isCJK at h
  unfold isLatinLetter
  simp only [Bool.and_eq_true, decide_eq_true_eq] at h
  simp only [Bool.or_eq_false_iff, Bool.and_eq_false_iff, decide_eq_false_iff_not, not_le]
  omega

theorem isCJK_not_other {c : Char} (h : isCJK c = true) : isOtherChar c = false := by
  unfold isOtherChar
  simp [h]

theorem isLatin_not_cjk {c : Char} (h : isLatinLetter c = true) : isCJK c = false := by
  unfold isLatinLetter at h
  unfold isCJK
  simp only [Bool.or_eq_true, Bool.and_eq_true, decide_eq_true_eq] at h
  simp only [Bool.and_eq_false_iff, decide_eq_false_iff_not, not_le]
  omega

theorem isLatin_not_other {c : Char} (h : isLatinLetter c = true) : isOtherChar c = false := by
  unfold isOtherChar
  simp [h]

/-- On an all-CJK text the Latin and other counts vanish. -/
theorem chinese_aware_length_all_cjk {s : List Char} (h : ∀ c ∈ s, isCJK c = true) :
    chinese_aware_length s = s.length := by
  rw [chinese_aware_length_eq]
  have h1 : s.countP isCJK = s.length := List.countP_eq_length.mpr h
  have h2 : s.countP isLatinLetter = 0 :=
    List.countP_eq_zero.mpr fun c hc => by simp [isCJK_not_latin (h c hc)]
  have h3 : s.countP isOtherChar = 0 :=
    List.countP_eq_zero.mpr fun c hc => by simp [isCJK_not_other (h c hc)]
  omega

/-- On an all-Latin text the CJK and other counts vanish. -/
theorem chinese_aware_length_all_latin {s : List Char} (h : ∀ c ∈ s, isLatinLetter c = true) :
    chinese_aware_length s = (s.length + 1) / 2 := by
  rw [chinese_aware_length_eq]
  have h1 : s.countP isLatinLetter = s.length := List.countP_eq_length.mpr h
  have h2 : s.countP isCJK = 0 :=
    List.countP_eq_zero.mpr fun c hc => by simp [isLatin_not_cjk (h c hc)]
  have h3 : s.countP isOtherChar = 0 :=
    List.countP_eq_zero.mpr fun c hc => by simp [isLatin_not_other (h c hc)]
  omega

/-- C5: pure-CJK text has weighted length `N`; pure-Latin text has weighted
length `ceil(N/2)`; each character that is neither CJK, Latin, nor whitespace
adds exactly one unit. -/
theorem C5_weighted_length_per_class :
    (∀ s : List Char, (∀ c ∈ s, isCJK c = true) → chinese_aware_length s = s.length) ∧
    (∀ s : List Char, (∀ c ∈ s, isLatinLetter c = true) →
      chinese_aware_length s = (s.length + 1) / 2) ∧
    (∀ (s : List Char) (c : Char), isOtherChar c = true →
      chinese_aware_length (s ++ [c]) = chinese_aware_length s + 1) := by
  refine ⟨fun s h => chinese_aware_length_all_cjk h,
          fun s h => chinese_aware_length_all_latin h, fun s c hc => ?_⟩
  rw [chinese_aware_length_eq, chinese_aware_length_eq]
  have hcjk : isCJK c = false := by
    unfold isOtherChar at hc
    simp only [Bool.and_eq_true, Bool.not_eq_true'] at hc
    exact hc.1.1
  have hlat : isLatinLetter c = false := by
    unfold isOtherChar at hc
    simp only [Bool.and_eq_true, Bool.not_eq_true'] at hc
    exact hc.1.2
  simp [List.countP_append, List.countP_cons, hcjk, hlat, hc]
  omega

/-- Witness for C5 at concrete inputs: a CJK string, a Latin string, and a
punctuation character appended to a mixed string. -/
theorem C5_weighted_length_per_class_witness :
    chinese_aware_length ['中', '文'] = 2 ∧
    chinese_aware_length ['a', 'b', 'c'] = 2 ∧
    chinese_aware_length (['中', 'a'] ++ ['!']) = chinese_aware_length ['中', 'a'] + 1 := by
  refine ⟨?_, ?_, ?_⟩
  · have := C5_weighted_length_per_class.1 ['中', '文'] (by decide)
    simpa using this
  · have := C5_weighted_length_per_class.2.1 ['a', 'b', 'c'] (by decide)
    simpa using this
  · exact C5_weighted_length_per_class.2.2 ['中', 'a'] '!' (by decide)

/-- C6 counterexample: the weighted length is not additive for pure-Latin
runs of odd length: `wl("a" ++ "b") = 1` but `wl("a") + wl("b") = 2`. -/
theorem C6_latin_additivity_counterexample :
    chinese_aware_length (['a'] ++ ['b']) ≠
      chinese_aware_length ['a'] + chinese_aware_length ['b'] := by
  decide

/-- C6 amended: additivity holds for pure-CJK same-script runs; for
pure-Latin runs concatenation is additive exactly when at least one of the
two runs has even length. -/
theorem C6_same_script_additivity_amended :
    (∀ s t : List Char, (∀ c ∈ s, isCJK c = true) → (∀ c ∈ t, isCJK c = true) →
      chinese_aware_length (s ++ t) = chinese_aware_length s + chinese_aware_length t) ∧
    (∀ s t : List Char, (∀ c ∈ s, isLatinLetter c = true) → (∀ c ∈ t, isLatinLetter c = true) →
      (chinese_aware_length (s ++ t) = chinese_aware_length s + chinese_aware_length t ↔
        s.length % 2 = 0 ∨ t.length % 2 = 0)) := by
  constructor
  · intro s t hs ht
    have hst : ∀ c ∈ s ++ t, isCJK c = true := by
      intro c hc
      rcases List.mem_append.mp hc with h | h
      · exact hs c h
      · exact ht c h
    rw [chinese_aware_length_all_cjk hst, chinese_aware_length_all_cjk hs,
        chinese_aware_length_all_cjk ht, List.length_append]
  · intro s t hs ht
    have hst : ∀ c ∈ s ++ t, isLatinLetter c = true := by
      intro c hc
      rcases List.mem_append.mp hc with h | h
      · exact hs c h
      · exact ht c h
    rw [chinese_aware_length_all_latin hst, chinese_aware_length_all_latin hs,
        chinese_aware_length_all_latin ht, List.length_append]
    omega

/-- Witness for the amended C6: CJK additivity at a concrete pair, and the
Latin even-length criterion at a concrete pair. -/
theorem C6_same_script_additivity_amended_witness :
    chinese_aware_length (['中'] ++ ['文']) =
      chinese_aware_length ['中'] + chinese_aware_length ['文'] ∧
    (chinese_aware_length (['a', 'b'] ++ ['c']) =
      chinese_aware_length ['a', 'b'] + chinese_aware_length ['c'] ↔
        (['a', 'b'].length % 2 = 0 ∨ (['c'].length % 2 = 0))) := by
  constructor
  · exact C6_same_script_additivity_amended.1 ['中'] ['文'] (by decide) (by decide)
  · exact C6_same_script_additivity_amended.2 ['a', 'b'] ['c'] (by decide) (by decide)

/-! ## `ChineseSemanticSplitter.split_documents` (text_splitter.py:46-74) -/

/-- A document record handed to the splitter. `parent` stands for the
identifying `source` metadata the loader put on the document. -/
structure PDoc where
  page_content : List Char
  parent : Nat
deriving DecidableEq

/-- A chunk produced by the splitter, after `split_documents` attaches its
positional metadata keys. `parent` is inherited from the originating
document. -/
structure PChunk where
  page_content : List Char
  parent : Nat
  chunk_index : Nat
  total_chunks : Nat
  summary : List Char
deriving DecidableEq

/-- `self.splitter.split_documents(documents)`: the underlying
`RecursiveCharacterTextSplitter` (an external collaborator) splits each
document's text into chunk texts, each chunk inheriting its parent
document's metadata, and the per-document chunk lists are concatenated in
document order. The per-document text splitting is the parameter `sp`. -/
def splitterOutput (sp : List Char → List (List Char)) (docs : List PDoc) : List PChunk :=
  (docs.map fun d => (sp d.page_content).map fun t =>
    { page_content := t, parent := d.parent, chunk_index := 0, total_chunks := 0,
      summary := ([] : List Char) }).flatten

/-- The `for i, chunk in enumerate(chunks)` loop of `split_documents`:
assigns `chunk_index = i` and `total_chunks = len(chunks)` over the whole
concatenated chunk list, plus the leading 50-character summary. -/
def tagChunks (total : Nat) : Nat → List PChunk → List PChunk
  | _, [] => []
  | i, c :: rest =>
    { c with chunk_index := i, total_chunks := total,
             summary := if 50 < c.page_content.length
                        then c.page_content.take 50 ++ ['.', '.', '.']
                        else c.page_content } :: tagChunks total (i + 1) rest

/-- `ChineseSemanticSplitter.split_documents` (text_splitter.py:46-74). -/
def split_documents (sp : List Char → List (List Char)) (documents : List PDoc) : List PChunk :=
  if documents = [] then []
  else
    let chunks := splitterOutput sp documents
    tagChunks chunks.length 0 chunks

theorem tagChunks_length (total : Nat) :
    ∀ (i : Nat) (l : List PChunk), (tagChunks total i l).length = l.length
  | _, [] => rfl
  | i, _ :: rest => by
    simp [tagChunks, tagChunks_length total (i + 1) rest]

theorem tagChunks_mem {total i : Nat} {l : List PChunk} {c : PChunk}
    (hc : c ∈ tagChunks total i l) :
    c.total_chunks = total ∧ i ≤ c.chunk_index ∧ c.chunk_index < i + l.length := by
  induction l generalizing i with
  | nil => simp [tagChunks] at hc
  | cons hd tl ih =>
    simp only [tagChunks, List.mem_cons] at hc
    rcases hc with hc | hc
    · subst hc
      simp
    · obtain ⟨h1, h2, h3⟩ := ih hc
      refine ⟨h1, by omega, by simpa [Nat.add_comm, Nat.add_assoc] using by omega⟩

/-- Models the real recursive splitter's behaviour on inputs shorter than
`chunk_size`: the text comes back as a single chunk (spec 4.1: "text shorter
than `max_units` → single-element sequence"). -/
def singleChunkSplit : List Char → List (List Char) := fun t => [t]

/-- Two one-character documents from two distinct parents. -/
def demoTwoDocs : List PDoc :=
  [{ page_content := ['x'], parent := 0 }, { page_content := ['y'], parent := 1 }]

/-- C2 counterexample: with two parent documents the single passage derived
from parent 1 carries `total_chunks = 2` (the global chunk count) while the
count of passages sharing parent 1 is 1, and its `chunk_index` is the global
position 1, not its 0-based position within its parent's split. -/
theorem C2_per_parent_counterexample :
    ((split_documents singleChunkSplit demoTwoDocs).filter fun c => c.parent == 1) =
      [{ page_content := ['y'], parent := 1, chunk_index := 1, total_chunks := 2,
         summary := ['y'] }] ∧
    ¬ (∀ c ∈ split_documents singleChunkSplit demoTwoDocs,
        ((split_documents singleChunkSplit demoTwoDocs).filter
          fun c2 => c2.parent == c.parent).length = c.total_chunks) := by
  constructor
  · decide
  · decide

/-- C2 amended: `chunk_index` and `total_chunks` are assigned globally over
the concatenation of all documents' chunks, so every passage satisfies
`0 ≤ chunk_index < total_chunks` with `total_chunks` equal to the length of
the whole returned passage list (not the per-parent count). -/
theorem C2_chunk_index_global_bounds
    (sp : List Char → List (List Char)) (documents : List PDoc) (c : PChunk)
    (hc : c ∈ split_documents sp documents) :
    c.chunk_index < c.total_chunks ∧
    c.total_chunks = (split_documents sp documents).length := by
  by_cases hd : documents = []
  · simp [split_documents, hd] at hc
  · simp only [split_documents, if_neg hd] at hc ⊢
    obtain ⟨h1, h2, h3⟩ := tagChunks_mem hc
    exact ⟨by omega, by rw [h1, tagChunks_length]⟩

/-- Witness for the amended C2 at the two-document input. -/
theorem C2_chunk_index_global_bounds_witness :
    ({ page_content := ['y'], parent := 1, chunk_index := 1, total_chunks := 2,
       summary := ['y'] } : PChunk) ∈ split_documents singleChunkSplit demoTwoDocs ∧
    (1 < 2 ∧ 2 = (split_documents singleChunkSplit demoTwoDocs).length) :=
  ⟨by decide, C2_chunk_index_global_bounds singleChunkSplit demoTwoDocs
    { page_content := ['y'], parent := 1, chunk_index := 1, total_chunks := 2,
      summary := ['y'] } (by decide)⟩

/-! ## Vector index manager: `src/vector_store.py`

`faiss.IndexFlatIP` is modelled as the list of inserted vectors plus the
declared dimension; its exact-search contract returns, for a one-row query,
the top-`k` inner-product scores in non-increasing order together with the
0-based insertion positions, padding with position `-1` when fewer than `k`
vectors are stored. The GPU-offload branches of the source are best-effort
and fall back to the CPU inside their own `try/except`, so they do not
change this functional behaviour and are not represented. -/

/-- A metadata dict: `payload` stands for the caller-supplied contents and
`indexed_at` for the timestamp key `build_index` adds. -/
structure Meta where
  payload : Nat
  indexed_at : Option Nat
deriving DecidableEq, Inhabited

/-- The in-memory `faiss.IndexFlatIP`: dimension and inserted vectors in
insertion order. -/
structure FlatIndex where
  d : Nat
  vectors : List (List Int)
deriving DecidableEq

/-- `FAISSVectorStore` instance state (the fields the claims touch);
`index = none` is the uninitialized state. -/
structure VStore where
  index_name : String
  search_k : Nat
  index : Option FlatIndex
  metadata : List Meta
deriving DecidableEq

/-- Exception kinds of vector_store.py: the `ValueError` raised by
`similarity_search` on an uninitialized index, and the custom
`IndexBuildError` / `IndexSaveError` / `IndexLoadError` classes. -/
inductive VSError where
  | invalidState
  | indexBuild
  | indexSave
  | indexLoad
deriving DecidableEq

/-- The `indexed_at` stamping of `build_index` (vector_store.py:60-61). -/
def stampMeta (now : Nat) (m : Meta) : Meta := { m with indexed_at := some now }

/-- `FAISSVectorStore.build_index` (vector_store.py:25-67). `embeddings.size
== 0` is the total element count of the matrix being zero. Nothing in the
modelled `try` body can raise (the GPU path catches its own failures), so
`IndexBuildError` is unreachable here; no file is touched. -/
def build_index (store : VStore) (embeddings : List (List Int)) (metadatas : List Meta)
    (now : Nat) : Except VSError (VStore × Bool) :=
  if (embeddings.map List.length).sum = 0 then
    .ok (store, false)
  else
    let dimension := (embeddings.headD []).length
    .ok ({ store with index := some { d := dimension, vectors := embeddings },
                      metadata := metadatas.map (stampMeta now) }, true)

/-- The on-disk state of the index directory: the `<name>.index` files and
the `<name>_meta.pkl` files, newest write first. -/
structure FS where
  indexFile : List (String × FlatIndex)
  metaFile : List (String × List Meta)
deriving DecidableEq

def FS.lookupIdx (fs : FS) (n : String) : Option FlatIndex :=
  (fs.indexFile.find? fun p => p.1 == n).map Prod.snd

def FS.lookupMeta (fs : FS) (n : String) : Option (List Meta) :=
  (fs.metaFile.find? fun p => p.1 == n).map Prod.snd

/-- `name = name or self.index_name`: `None` and the empty string are falsy
and fall back to the configured index name. -/
def normName (store : VStore) (name : Option String) : String :=
  match name with
  | none => store.index_name
  | some s => if s = "" then store.index_name else s

/-- `FAISSVectorStore.save_index` (vector_store.py:69-95): returns `false`
with no write when uninitialized, otherwise writes both artifact files.
`IndexSaveError` arises only from an I/O failure, which the filesystem
model does not exhibit. -/
def save_index (store : VStore) (fs : FS) (name : Option String) :
    Except VSError (FS × Bool) :=
  match store.index with
  | none => .ok (fs, false)
  | some idx =>
    let n := normName store name
    .ok ({ indexFile := (n, idx) :: fs.indexFile,
           metaFile := (n, store.metadata) :: fs.metaFile }, true)

/-- `FAISSVectorStore.load_index` (vector_store.py:97-127): returns `false`
if either artifact file is absent, otherwise replaces the in-memory index
and metadata with the deserialized pair. `IndexLoadError` arises only from
a deserialization failure, which the model's lossless artifacts never
produce. -/
def load_index (store : VStore) (fs : FS) (name : Option String) :
    Except VSError (VStore × Bool) :=
  let n := normName store name
  match fs.lookupIdx n, fs.lookupMeta n with
  | some idx, some md => .ok ({ store with index := some idx, metadata := md }, true)
  | _, _ => .ok (store, false)

/-- Inner product of two rows. -/
def dot (u v : List Int) : Int := (List.zipWith (fun a b => a * b) u v).sum

/-- Score/position pairs of every stored vector against the query. -/
def scorePairs (stored : List (List Int)) (q : List Int) : List (Int × Int) :=
  (List.range stored.length).map fun i => (dot (stored.getD i []) q, (i : Int))

/-- Non-increasing-score order on score/position pairs. -/
def scoreGE (a b : Int × Int) : Prop := b.1 ≤ a.1

instance : DecidableRel scoreGE := fun a b => inferInstanceAs (Decidable (b.1 ≤ a.1))

instance : IsTotal (Int × Int) scoreGE := ⟨fun a b => Int.le_total b.1 a.1⟩

instance : IsTrans (Int × Int) scoreGE := ⟨fun _ _ _ h1 h2 => le_trans h2 h1⟩

/-- `self.index.search(query, k)` for a flat inner-product index: the `k`
best (score, position) pairs in non-increasing score order, padded with
position `-1` when the index holds fewer than `k` vectors. -/
def faissSearch (stored : List (List Int)) (q : List Int) (k : Nat) : List (Int × Int) :=
  let top := (List.insertionSort scoreGE (scorePairs stored q)).take k
  top ++ List.replicate (k - top.length) (0, -1)

/-- One entry of the result list of `similarity_search`. -/
structure SearchResult where
  metadata : Meta
  score : Int
  rank : Nat
deriving DecidableEq

/-- The `for i, idx in enumerate(indices[0])` result loop of
`similarity_search` (vector_store.py:155-162): skip `-1` and out-of-range
positions, otherwise emit the aligned metadata entry, the score at the same
column, and the 1-based rank. -/
def buildResults (metadata : List Meta) : Nat → List (Int × Int) → List SearchResult
  | _, [] => []
  | i, (d, idx) :: rest =>
    if idx ≠ -1 ∧ idx < (metadata.length : Int) then
      { metadata := metadata.getD idx.toNat default, score := d, rank := i + 1 } ::
        buildResults metadata (i + 1) rest
    else
      buildResults metadata (i + 1) rest

/-- `FAISSVectorStore.similarity_search` (vector_store.py:129-164): raises
`ValueError` when uninitialized; `k = k or self.search_k` treats both `None`
and `0` as absent. -/
def similarity_search (store : VStore) (q : List Int) (k : Option Nat) :
    Except VSError (List SearchResult) :=
  match store.index with
  | none => .error .invalidState
  | some idx =>
    let kk := match k with
              | none => store.search_k
              | some n => if n = 0 then store.search_k else n
    .ok (buildResults store.metadata 0 (faissSearch idx.vectors q kk))

/-! ## Orchestrator: `src/knowledge_base.py` -/

/-- The structured outcome of `build_knowledge_base` (the `stats` and
wall-clock fields are diagnostic and not modelled). -/
structure KBResult where
  success : Bool
  message : String
deriving DecidableEq

/-- The collaborators `build_knowledge_base` calls, each call site a
fallible computation (`.error` is a raised Python exception carrying its
message). -/
structure KBDeps where
  load_index_result : Except String Bool
  documents_result : Except String (List PDoc)
  split_result : List PDoc → Except String (List PChunk)
  embed_result : List (List Char) → Except String (List (List Int))
  build_result : List (List Int) → Except String Bool
  save_result : Except String Bool

/-- The body of the `try` block of `KnowledgeBaseBuilder.build_knowledge_base`
(knowledge_base.py:38-106): early `return`s of failure dicts are ordinary
`.ok` values; any uncaught exception in a stage surfaces as `.error`. -/
def buildPipeline (deps : KBDeps) (rebuild : Bool) : Except String KBResult := do
  let loaded ← if rebuild then pure false else deps.load_index_result
  if loaded then
    return { success := true, message := "知识库加载成功" }
  let documents ← deps.documents_result
  if documents = [] then
    return { success := false, message := "没有找到可处理的文档" }
  let chunks ← deps.split_result documents
  if chunks = [] then
    return { success := false, message := "文档分割失败" }
  let texts := chunks.map PChunk.page_content
  let embeddings ← deps.embed_result texts
  if (embeddings.map List.length).sum = 0 then
    return { success := false, message := "向量化失败" }
  let _ ← deps.build_result embeddings
  let _ ← deps.save_result
  return { success := true, message := "知识库构建成功" }

/-- `KnowledgeBaseBuilder.build_knowledge_base` (knowledge_base.py:26-113):
the whole pipeline inside `try`, with the top-level `except Exception`
converting any raised exception into a failure result. -/
def build_knowledge_base (deps : KBDeps) (rebuild : Bool) : KBResult :=
  match buildPipeline deps rebuild with
  | .ok r => r
  | .error e => { success := false, message := "知识库构建失败: " ++ e }

/-! ## Concrete fixtures -/

def vsEmptyStore : VStore :=
  { index_name := "default", search_k := 5, index := none, metadata := [] }

def fsEmpty : FS := { indexFile := [], metaFile := [] }

def vsBuiltDemo : VStore :=
  { index_name := "default", search_k := 5,
    index := some { d := 1, vectors := [[3]] },
    metadata := [{ payload := 9, indexed_at := some 1 }] }

/-! ## Claims about the vector index manager -/

/-- C1 counterexample: `build_index` with 2 vectors and 1 metadata entry
does not raise — it succeeds and returns `True`, leaving the metadata
sequence shorter than the vector count. The code performs no
`len(vectors) == len(metadatas)` validation at all. -/
theorem C1_mismatch_no_error_counterexample :
    build_index vsEmptyStore [[1], [2]] [{ payload := 0, indexed_at := none }] 7 =
      .ok ({ vsEmptyStore with
               index := some { d := 1, vectors := [[1], [2]] },
               metadata := [{ payload := 0, indexed_at := some 7 }] }, true) := by
  rfl

/-- C1 amended: on an empty vector batch `build_index` returns `False`
without raising and without touching any state or file; it never validates
the vector/metadata alignment, so a mismatched non-empty call succeeds with
`True` and a metadata sequence whose length is the metadata argument's, not
the vector count's. -/
theorem C1_build_index_amended :
    (∀ (store : VStore) (embeddings : List (List Int)) (metadatas : List Meta) (now : Nat),
      (embeddings.map List.length).sum = 0 →
      build_index store embeddings metadatas now = .ok (store, false)) ∧
    (∀ (store : VStore) (embeddings : List (List Int)) (metadatas : List Meta) (now : Nat),
      (embeddings.map List.length).sum ≠ 0 →
      ∃ store', build_index store embeddings metadatas now = .ok (store', true) ∧
        store'.metadata.length = metadatas.length ∧
        (store'.index.map fun ix => ix.vectors.length) = some embeddings.length) := by
  constructor
  · intro store embeddings metadatas now h
    simp [build_index, h]
  · intro store embeddings metadatas now h
    refine ⟨{ store with
                index := some { d := (embeddings.headD []).length, vectors := embeddings },
                metadata := metadatas.map (stampMeta now) }, ?_, ?_, ?_⟩
    · simp [build_index, h]
    · simp
    · simp

/-- Witness for the amended C1: the empty batch and a 2-vector/1-metadata
mismatch. -/
theorem C1_build_index_amended_witness :
    build_index vsEmptyStore ([] : List (List Int)) ([] : List Meta) 3 =
      .ok (vsEmptyStore, false) ∧
    ∃ store', build_index vsEmptyStore [[1], [2]] [{ payload := 0, indexed_at := none }] 7 =
        .ok (store', true) ∧ store'.metadata.length = 1 ∧
      (store'.index.map fun ix => ix.vectors.length) = some 2 :=
  ⟨C1_build_index_amended.1 vsEmptyStore [] [] 3 rfl,
   C1_build_index_amended.2 vsEmptyStore [[1], [2]]
     [{ payload := 0, indexed_at := none }] 7 (by decide)⟩

/-- C7: when either artifact file is absent, `load_index` returns `false`
(an ordinary `.ok`, not an exception) and leaves the store untouched. -/
theorem C7_load_index_missing_returns_false (store : VStore) (fs : FS) (name : Option String)
    (h : fs.lookupIdx (normName store name) = none ∨
         fs.lookupMeta (normName store name) = none) :
    load_index store fs name = .ok (store, false) := by
  rcases h with h | h
  · cases hm : fs.lookupMeta (normName store name) <;> simp [load_index, h, hm]
  · cases hi : fs.lookupIdx (normName store name) <;> simp [load_index, h, hi]

/-- Witness for C7: `load_index("missing")` on an empty index directory. -/
theorem C7_load_index_missing_returns_false_witness :
    fsEmpty.lookupIdx (normName vsEmptyStore (some "missing")) = none ∧
    load_index vsEmptyStore fsEmpty (some "missing") = .ok (vsEmptyStore, false) :=
  ⟨rfl, C7_load_index_missing_returns_false vsEmptyStore fsEmpty (some "missing") (Or.inl rfl)⟩

/-- C8: searching an uninitialized store raises the `ValueError` kind
(`invalidState`), never returns a result list, and that kind is distinct
from the build/save/load exception kinds. -/
theorem C8_search_uninitialized_invalid_state (store : VStore) (q : List Int) (k : Option Nat)
    (h : store.index = none) :
    similarity_search store q k = .error VSError.invalidState ∧
    (∀ r : List SearchResult, similarity_search store q k ≠ .ok r) ∧
    VSError.invalidState ≠ VSError.indexBuild ∧
    VSError.invalidState ≠ VSError.indexSave ∧
    VSError.invalidState ≠ VSError.indexLoad := by
  have h1 : similarity_search store q k = .error VSError.invalidState := by
    unfold similarity_search
    rw [h]
  refine ⟨h1, fun r hr => ?_, by decide, by decide, by decide⟩
  rw [h1] at hr
  exact Except.noConfusion hr

/-- Witness for C8 on a concrete uninitialized store. -/
theorem C8_search_uninitialized_invalid_state_witness :
    vsEmptyStore.index = none ∧
    similarity_search vsEmptyStore [1] none = .error VSError.invalidState :=
  ⟨rfl, (C8_search_uninitialized_invalid_state vsEmptyStore [1] none rfl).1⟩

/-- C4: for a Built store, `save_index(name)` then `load_index(name)` on
the same name succeeds and reproduces the vector count, the dimension, and
the metadata sequence (content and order) of the state before saving. -/
theorem C4_save_load_round_trip (store : VStore) (fs : FS) (name : Option String)
    (idx : FlatIndex) (h : store.index = some idx) :
    ∃ fs' store',
      save_index store fs name = .ok (fs', true) ∧
      load_index store fs' name = .ok (store', true) ∧
      (store'.index.map fun ix => ix.vectors.length) = some idx.vectors.length ∧
      (store'.index.map FlatIndex.d) = some idx.d ∧
      store'.metadata = store.metadata := by
  refine ⟨{ indexFile := (normName store name, idx) :: fs.indexFile,
            metaFile := (normName store name, store.metadata) :: fs.metaFile },
          { store with index := some idx, metadata := store.metadata }, ?_, ?_, rfl, rfl, rfl⟩
  · unfold save_index
    rw [h]
  · simp [load_index, FS.lookupIdx, FS.lookupMeta, List.find?_cons]

/-- Witness for C4 on a concrete one-vector store. -/
theorem C4_save_load_round_trip_witness :
    ∃ fs' store',
      save_index vsBuiltDemo fsEmpty (some "kb") = .ok (fs', true) ∧
      load_index vsBuiltDemo fs' (some "kb") = .ok (store', true) ∧
      (store'.index.map fun ix => ix.vectors.length) = some 1 ∧
      (store'.index.map FlatIndex.d) = some 1 ∧
      store'.metadata = vsBuiltDemo.metadata :=
  C4_save_load_round_trip vsBuiltDemo fsEmpty (some "kb") { d := 1, vectors := [[3]] } rfl

/-! ## Claims about the orchestrator -/

/-- C9: any exception raised by a stage of the load → chunk → embed → index
→ save sequence is caught at the top level of `build_knowledge_base` and
converted into a structured failure result; the operation always returns a
`KBResult`, never propagates the exception. -/
theorem C9_build_converts_exceptions (deps : KBDeps) (rebuild : Bool) (e : String)
    (h : buildPipeline deps rebuild = .error e) :
    build_knowledge_base deps rebuild =
      { success := false, message := "知识库构建失败: " ++ e } ∧
    (build_knowledge_base deps rebuild).success = false := by
  unfold build_knowledge_base
  rw [h]
  exact ⟨rfl, rfl⟩

/-- A dependency bundle whose document-loading stage raises. -/
def kbDemoDeps : KBDeps :=
  { load_index_result := .ok false,
    documents_result := .error "boom",
    split_result := fun _ => .ok [],
    embed_result := fun _ => .ok [],
    build_result := fun _ => .ok true,
    save_result := .ok true }

/-- Witness for C9: the loader's exception becomes a failure result. -/
theorem C9_build_converts_exceptions_witness :
    buildPipeline kbDemoDeps true = .error "boom" ∧
    build_knowledge_base kbDemoDeps true =
      { success := false, message := "知识库构建失败: " ++ "boom" } :=
  ⟨rfl, (C9_build_converts_exceptions kbDemoDeps true "boom" rfl).1⟩

/-! ## Search lemmas -/

theorem buildResults_length_le (md : List Meta) :
    ∀ (i : Nat) (ps : List (Int × Int)), (buildResults md i ps).length ≤ ps.length := by
  intro i ps
  induction ps generalizing i with
  | nil => simp [buildResults]
  | cons p rest ih =>
    obtain ⟨d, idx⟩ := p
    simp only [buildResults]
    split
    · simpa using Nat.succ_le_succ (ih (i + 1))
    · exact Nat.le_succ_of_le (ih (i + 1))

theorem buildResults_scores_sublist (md : List Meta) :
    ∀ (i : Nat) (ps : List (Int × Int)),
      ((buildResults md i ps).map SearchResult.score).Sublist (ps.map Prod.fst) := by
  intro i ps
  induction ps generalizing i with
  | nil => simp [buildResults]
  | cons p rest ih =>
    obtain ⟨d, idx⟩ := p
    simp only [buildResults, List.map_cons]
    split
    · exact List.Sublist.cons₂ _ (ih (i + 1))
    · exact List.Sublist.cons _ (ih (i + 1))

theorem buildResults_append (md : List Meta) :
    ∀ (i : Nat) (ps qs : List (Int × Int)),
      buildResults md i (ps ++ qs) =
        buildResults md i ps ++ buildResults md (i + ps.length) qs := by
  intro i ps qs
  induction ps generalizing i with
  | nil => simp [buildResults]
  | cons p rest ih =>
    obtain ⟨d, idx⟩ := p
    have harith : i + 1 + rest.length = i + (rest.length + 1) := by omega
    simp only [List.cons_append, buildResults, List.append_eq, List.length_cons]
    split
    · rw [ih (i + 1), harith]
      rfl
    · rw [ih (i + 1), harith]

theorem buildResults_replicate_pad (md : List Meta) :
    ∀ (i m : Nat), buildResults md i (List.replicate m (0, -1)) = [] := by
  intro i m
  induction m generalizing i with
  | zero => rfl
  | succ m ih =>
    simp only [List.replicate_succ, buildResults]
    split
    · rename_i hcond
      exact absurd rfl hcond.1
    · exact ih (i + 1)

theorem buildResults_mem (md : List Meta) :
    ∀ {i : Nat} {ps : List (Int × Int)} {res : SearchResult}, res ∈ buildResults md i ps →
      ∃ d idx, (d, idx) ∈ ps ∧ idx ≠ -1 ∧ idx < (md.length : Int) ∧
        res.score = d ∧ res.metadata = md.getD idx.toNat default := by
  intro i ps
  induction ps generalizing i with
  | nil =>
    intro res h
    simp [buildResults] at h
  | cons p rest ih =>
    obtain ⟨d, idx⟩ := p
    intro res h
    simp only [buildResults] at h
    split at h
    · rename_i hcond
      rcases List.mem_cons.mp h with h | h
      · subst h
        exact ⟨d, idx, List.mem_cons_self _ _, hcond.1, hcond.2, rfl, rfl⟩
      · obtain ⟨d', idx', hm, h1, h2, h3, h4⟩ := ih h
        exact ⟨d', idx', List.mem_cons_of_mem _ hm, h1, h2, h3, h4⟩
    · obtain ⟨d', idx', hm, h1, h2, h3, h4⟩ := ih h
      exact ⟨d', idx', List.mem_cons_of_mem _ hm, h1, h2, h3, h4⟩

theorem faissSearch_length (stored : List (List Int)) (q : List Int) (k : Nat) :
    (faissSearch stored q k).length = k := by
  unfold faissSearch
  simp only [List.length_append, List.length_replicate, List.length_take]
  omega

theorem scorePairs_mem {stored : List (List Int)} {q : List Int} {p : Int × Int}
    (h : p ∈ scorePairs stored q) :
    ∃ i : Nat, i < stored.length ∧ p = (dot (stored.getD i []) q, (i : Int)) := by
  unfold scorePairs at h
  simp only [List.mem_map, List.mem_range] at h
  obtain ⟨i, hi, hp⟩ := h
  exact ⟨i, hi, hp.symm⟩

theorem getD_map_stampMeta (now : Nat) (l : List Meta) (i : Nat) (h : i < l.length) :
    (l.map (stampMeta now)).getD i default = stampMeta now (l.getD i default) := by
  simp [List.getD_eq_getElem?_getD, List.getElem?_eq_getElem, h]

/-! ## Claims about `similarity_search` -/

def vsK1Empty : VStore :=
  { index_name := "default", search_k := 1, index := none, metadata := [] }

def vsK1Store : VStore :=
  { index_name := "default", search_k := 1,
    index := some { d := 1, vectors := [[2]] },
    metadata := [{ payload := 0, indexed_at := some 1 }] }

/-- C3 counterexample: on an index built from one vector aligned with one
metadata entry, asking for `k = 0` results returns one result, not at most
zero — `k = 0` is falsy and falls back to `search_k`. -/
theorem C3_k_zero_counterexample :
    build_index vsK1Empty [[2]] [{ payload := 0, indexed_at := none }] 1 =
      .ok (vsK1Store, true) ∧
    ¬ (∀ r : List SearchResult,
        similarity_search vsK1Store [1] (some 0) = .ok r → r.length ≤ 0) := by
  refine ⟨rfl, fun h => ?_⟩
  have := h [{ metadata := { payload := 0, indexed_at := some 1 }, score := 2, rank := 1 }]
    rfl
  simp at this

/-- C3 amended (restricted to requested counts `k ≥ 1`): on an index built
from aligned vectors and metadata, `similarity_search` returns at most `k`
results, scores are non-increasing along the result list, and each result
carries the metadata entry inserted at the matched vector's ordinal position
during `build_index` together with that vector's inner-product score. -/
theorem C3_search_top_k_amended
    (s0 : VStore) (embeddings : List (List Int)) (metadatas : List Meta) (now : Nat)
    (store : VStore) (q : List Int) (k : Nat) (r : List SearchResult)
    (_hlen : embeddings.length = metadatas.length)
    (hbuild : build_index s0 embeddings metadatas now = .ok (store, true))
    (hk : 1 ≤ k)
    (hr : similarity_search store q (some k) = .ok r) :
    r.length ≤ k ∧
    List.Pairwise (fun a b : Int => b ≤ a) (r.map SearchResult.score) ∧
    ∀ res ∈ r, ∃ i : Nat, i < metadatas.length ∧
      res.metadata = stampMeta now (metadatas.getD i default) ∧
      res.score = dot (embeddings.getD i []) q := by
  unfold build_index at hbuild
  by_cases hsz : (embeddings.map List.length).sum = 0
  · rw [if_pos hsz] at hbuild
    injection hbuild with h2
    exact absurd (congrArg Prod.snd h2) (by simp)
  · rw [if_neg hsz] at hbuild
    injection hbuild with h2
    have hstore : store =
        { s0 with index := some { d := (embeddings.headD []).length, vectors := embeddings },
                  metadata := metadatas.map (stampMeta now) } :=
      (congrArg Prod.fst h2).symm
    subst hstore
    simp only [similarity_search] at hr
    have hknz : ¬ (k = 0) := by omega
    rw [if_neg hknz] at hr
    injection hr with hr2
    subst hr2
    have hpad : buildResults (metadatas.map (stampMeta now)) 0 (faissSearch embeddings q k) =
        buildResults (metadatas.map (stampMeta now)) 0
          ((List.insertionSort scoreGE (scorePairs embeddings q)).take k) := by
      unfold faissSearch
      rw [buildResults_append, buildResults_replicate_pad, List.append_nil]
    refine ⟨?_, ?_, ?_⟩
    · exact le_trans (buildResults_length_le _ _ _) (le_of_eq (faissSearch_length _ _ _))
    · rw [hpad]
      have hsorted : List.Pairwise scoreGE
          (List.insertionSort scoreGE (scorePairs embeddings q)) :=
        List.sorted_insertionSort scoreGE _
      have htake : List.Pairwise scoreGE
          ((List.insertionSort scoreGE (scorePairs embeddings q)).take k) :=
        List.Pairwise.sublist (List.take_sublist _ _) hsorted
      have hmap : List.Pairwise (fun a b : Int => b ≤ a)
          (((List.insertionSort scoreGE (scorePairs embeddings q)).take k).map Prod.fst) :=
        List.Pairwise.map Prod.fst (fun _ _ h => h) htake
      exact List.Pairwise.sublist (buildResults_scores_sublist _ _ _) hmap
    · intro res hres
      rw [hpad] at hres
      obtain ⟨d, idx, hmem, _, hlt, hsc, hmd⟩ := buildResults_mem _ hres
      have hmem2 : (d, idx) ∈ List.insertionSort scoreGE (scorePairs embeddings q) :=
        List.mem_of_mem_take hmem
      have hmem3 : (d, idx) ∈ scorePairs embeddings q :=
        (List.mem_insertionSort scoreGE).mp hmem2
      obtain ⟨i, hi, hpi⟩ := scorePairs_mem hmem3
      have hd : d = dot (embeddings.getD i []) q := congrArg Prod.fst hpi
      have hidx : idx = (i : Int) := congrArg Prod.snd hpi
      have hi2 : i < metadatas.length := by
        rw [hidx] at hlt
        simp only [List.length_map] at hlt
        exact_mod_cast hlt
      refine ⟨i, hi2, ?_, ?_⟩
      · rw [hmd, hidx]
        simpa using getD_map_stampMeta now metadatas i hi2
      · rw [hsc, hd]

def vsTwoBuilt : VStore :=
  { index_name := "default", search_k := 5,
    index := some { d := 1, vectors := [[1], [2]] },
    metadata := [{ payload := 0, indexed_at := some 7 },
                 { payload := 1, indexed_at := some 7 }] }

def vsTwoResult : List SearchResult :=
  [{ metadata := { payload := 1, indexed_at := some 7 }, score := 2, rank := 1 }]

/-- Witness for the amended C3: two 1-dimensional vectors, `k = 1`; the
single result is the higher-scoring second vector with its aligned
metadata. -/
theorem C3_search_top_k_amended_witness :
    similarity_search vsTwoBuilt [1] (some 1) = .ok vsTwoResult ∧
    (vsTwoResult.length ≤ 1 ∧
     List.Pairwise (fun a b : Int => b ≤ a) (vsTwoResult.map SearchResult.score) ∧
     ∀ res ∈ vsTwoResult, ∃ i : Nat,
       i < ([{ payload := 0, indexed_at := none },
             { payload := 1, indexed_at := none }] : List Meta).length ∧
       res.metadata = stampMeta 7
         (([{ payload := 0, indexed_at := none },
            { payload := 1, indexed_at := none }] : List Meta).getD i default) ∧
       res.score = dot (([[1], [2]] : List (List Int)).getD i []) [1]) :=
  ⟨rfl,
   C3_search_top_k_amended vsEmptyStore [[1], [2]]
     [{ payload := 0, indexed_at := none }, { payload := 1, indexed_at := none }] 7
     vsTwoBuilt [1] 1 vsTwoResult rfl rfl (by decide) rfl⟩

/-- C10: a falsy `k = 0` is treated as an omitted `k`: the search behaves
exactly as with `k = None`, uses the configured `search_k`, and can return
up to `search_k` results (concretely: a store with `search_k = 1` returns
one result for `k = 0`). -/
theorem C10_k_zero_falls_back (store : VStore) (q : List Int) :
    similarity_search store q (some 0) = similarity_search store q none ∧
    (∀ (idx : FlatIndex) (r : List SearchResult), store.index = some idx →
      similarity_search store q (some 0) = .ok r → r.length ≤ store.search_k) ∧
    (∃ (s : VStore) (qv : List Int) (r : List SearchResult),
      0 < s.search_k ∧ similarity_search s qv (some 0) = .ok r ∧
      r.length = s.search_k) := by
  refine ⟨?_, ?_, ?_⟩
  · unfold similarity_search
    cases store.index <;> rfl
  · intro idx r h hr
    simp only [similarity_search, h, if_true] at hr
    injection hr with hr2
    subst hr2
    exact le_trans (buildResults_length_le _ _ _) (le_of_eq (faissSearch_length _ _ _))
  · exact ⟨vsK1Store, [1],
      [{ metadata := { payload := 0, indexed_at := some 1 }, score := 2, rank := 1 }],
      by decide, rfl, rfl⟩

/-- Witness for C10 on the one-vector store with `search_k = 1`. -/
theorem C10_k_zero_falls_back_witness :
    similarity_search vsK1Store [1] (some 0) = similarity_search vsK1Store [1] none ∧
    ([{ metadata := { payload := 0, indexed_at := some 1 }, score := 2,
        rank := 1 }] : List SearchResult).length ≤ vsK1Store.search_k :=
  ⟨(C10_k_zero_falls_back vsK1Store [1]).1,
   (C10_k_zero_falls_back vsK1Store [1]).2.1 { d := 1, vectors := [[2]] }
     [{ metadata := { payload := 0, indexed_at := some 1 }, score := 2, rank := 1 }]
     rfl rfl⟩

end Qimo
